import Mathlib

/-!
# ZeroPowerManager: clock switching and RTC interrupt scheduling

A shallow embedding of `ZeroPowerManager.c` (SAMD21 / Arduino Zero).

* `Regs` holds the peripheral registers the source touches and the three
  file-scope globals of the source.
* `Machine` is `Regs` together with the ordered record of the stores executed
  so far and the number of status-register reads performed so far.
* Every C assignment to a register or global is one `store`.
* Machine integers are naturals reduced modulo `2 ^ 32` at the places where the
  C arithmetic can wrap.
* Status polls read an explicit hardware oracle and carry fuel; a poll that is
  still busy when the fuel is used up ends in `Outcome.hung`.
-/

namespace ZPM

/-! ## Device constants (vendor header `samd.h`, SAMD21) -/

/-- The C type `voidFuncPtr`: the address of a `void f(void)` function. -/
abbrev voidFuncPtr := Nat

/-- The null function pointer. -/
def NULL : voidFuncPtr := 0

/-- Width of the RTC counter, the compare register and `uint32_t`. -/
def WORD : Nat := 2 ^ 32

/-- Generic clock source index of XOSC32K. -/
def GCLK_SOURCE_XOSC32K : Nat := 5
/-- Generic clock source index of OSC8M. -/
def GCLK_SOURCE_OSC8M : Nat := 6
/-- Generic clock source index of DFLL48M. -/
def GCLK_SOURCE_DFLL48M : Nat := 7

/-- Bit position of the SRC field of GCLK.GENCTRL. -/
def GCLK_GENCTRL_SRC_Pos : Nat := 8
/-- The ID field of GCLK.GENCTRL holding generator number `n`. -/
def GCLK_GENCTRL_ID (n : Nat) : Nat := n &&& 0xF
/-- SRC field value selecting DFLL48M, already shifted into place. -/
def GCLK_GENCTRL_SRC_DFLL48M : Nat := 0x7 <<< 8
/-- Generator enable bit of GCLK.GENCTRL. -/
def GCLK_GENCTRL_GENEN : Nat := 0x1 <<< 16
/-- Improve-duty-cycle bit of GCLK.GENCTRL. -/
def GCLK_GENCTRL_IDC : Nat := 0x1 <<< 17

/-- The ID field of GCLK.CLKCTRL holding multiplexer number `n`. -/
def GCLK_CLKCTRL_ID (n : Nat) : Nat := n &&& 0x3F
/-- GEN field of GCLK.CLKCTRL selecting generator 1. -/
def GCLK_CLKCTRL_GEN_GCLK1 : Nat := 0x1 <<< 8
/-- Clock enable bit of GCLK.CLKCTRL. -/
def GCLK_CLKCTRL_CLKEN : Nat := 0x1 <<< 14
/-- The ID field of GCLK.GENDIV holding generator number `n`. -/
def GCLK_GENDIV_ID (n : Nat) : Nat := n &&& 0xF
/-- Synchronisation busy bit of GCLK.STATUS. -/
def GCLK_STATUS_SYNCBUSY : Nat := 0x1 <<< 7

/-- Flash read wait states: 0 (single cycle access). -/
def NVMCTRL_CTRLB_RWS_SINGLE_Val : Nat := 0
/-- Flash read wait states: 1. -/
def NVMCTRL_CTRLB_RWS_HALF_Val : Nat := 1

/-- DFLL enable bit. -/
def SYSCTRL_DFLLCTRL_ENABLE : Nat := 0x1 <<< 1
/-- DFLL closed loop mode bit. -/
def SYSCTRL_DFLLCTRL_MODE : Nat := 0x1 <<< 2
/-- DFLL quick lock disable bit. -/
def SYSCTRL_DFLLCTRL_QLDIS : Nat := 0x1 <<< 9
/-- DFLL wait-for-lock bit. -/
def SYSCTRL_DFLLCTRL_WAITLOCK : Nat := 0x1 <<< 11
/-- Multiplier field of SYSCTRL.DFLLMUL. -/
def SYSCTRL_DFLLMUL_MUL (v : Nat) : Nat := v &&& 0xFFFF
/-- Fine step field of SYSCTRL.DFLLMUL. -/
def SYSCTRL_DFLLMUL_FSTEP (v : Nat) : Nat := (v &&& 0x3FF) <<< 16
/-- Coarse step field of SYSCTRL.DFLLMUL. -/
def SYSCTRL_DFLLMUL_CSTEP (v : Nat) : Nat := (v &&& 0x3F) <<< 26
/-- DFLL ready flag of SYSCTRL.PCLKSR. -/
def SYSCTRL_PCLKSR_DFLLRDY : Nat := 0x1 <<< 4
/-- DFLL fine lock flag of SYSCTRL.PCLKSR. -/
def SYSCTRL_PCLKSR_DFLLLCKF : Nat := 0x1 <<< 6
/-- DFLL coarse lock flag of SYSCTRL.PCLKSR. -/
def SYSCTRL_PCLKSR_DFLLLCKC : Nat := 0x1 <<< 7

/-- All interrupt flags of RTC MODE0: CMP0 (bit 0), SYNCRDY (bit 6), OVF (bit 7). -/
def RTC_MODE0_INTFLAG_MASK : Nat := 0xC1
/-- All interrupt enables of RTC MODE0: CMP0 (bit 0), SYNCRDY (bit 6), OVF (bit 7). -/
def RTC_MODE0_INTENCLR_MASK : Nat := 0xC1
/-- Bit position of CMP0 in the RTC MODE0 interrupt registers. -/
def RTC_MODE0_CMP0_Pos : Nat := 0

/-! ## State -/

/-- The registers and globals read or written by the modelled functions. -/
structure Regs where
  /-- The global `_g_RTC_interrupt_interval`. -/
  interval : Nat
  /-- The global `_g_RTC_callBack`. -/
  callBack : voidFuncPtr
  /-- The global `_g_f_playing_possum`. -/
  possum : Bool
  /-- RTC MODE0 COUNT. -/
  COUNT : Nat
  /-- RTC MODE0 COMP[0]. -/
  COMP0 : Nat
  /-- RTC MODE0 INTFLAG (pending interrupt sources). -/
  INTFLAG : Nat
  /-- RTC MODE0 interrupt enable mask, seen through INTENSET and INTENCLR. -/
  INTEN : Nat
  /-- GCLK GENCTRL, one configuration word per generator (selected by the ID field). -/
  GENCTRL : Nat → Nat
  /-- GCLK GENDIV, one word per generator (selected by the ID field). -/
  GENDIV : Nat → Nat
  /-- GCLK CLKCTRL, one word per clock multiplexer (selected by the ID field). -/
  CLKCTRL : Nat → Nat
  /-- The bit field `NVMCTRL->CTRLB.bit.RWS`. -/
  RWS : Nat
  /-- SYSCTRL DFLLCTRL. -/
  DFLLCTRL : Nat
  /-- SYSCTRL DFLLMUL. -/
  DFLLMUL : Nat

/-- The location assigned by one C statement. -/
inductive Target where
  | interval
  | callBack
  | possum
  | COUNT
  | COMP0
  | INTFLAG
  | INTENSET
  | INTENCLR
  | GENCTRL
  | GENDIV
  | CLKCTRL
  | RWS
  | DFLLCTRL
  | DFLLMUL
deriving DecidableEq, Repr

/-- One executed store: what was assigned, the registers before and after. -/
structure WriteEv where
  target : Target
  pre : Regs
  post : Regs

/-- Registers, the stores executed so far (oldest first), and how many times
GCLK.STATUS and SYSCTRL.PCLKSR have been read so far. -/
structure Machine where
  regs : Regs
  writes : List WriteEv
  gclkReads : Nat
  pclksrReads : Nat

/-- A machine with the given registers and an empty history. -/
def Machine.fresh (r : Regs) : Machine := ⟨r, [], 0, 0⟩

/-- Execute one C assignment: update the registers and record the store. -/
def store (t : Target) (f : Regs → Regs) (s : Machine) : Machine :=
  { s with regs := f s.regs, writes := s.writes ++ [⟨t, s.regs, f s.regs⟩] }

/-- Effect of writing `v` to a write-one-to-clear register of width 8
(INTFLAG, INTENCLR): the bits set in `v` are cleared. -/
def clearBits (old v : Nat) : Nat := old &&& (0xFF ^^^ (v &&& 0xFF))

/-- Effect of writing `v` to a write-one-to-set register (INTENSET). -/
def setBits (old v : Nat) : Nat := old ||| (v &&& 0xFF)

/-- Is the CMP0 interrupt enabled in RTC MODE0? -/
def cmp0Enabled (r : Regs) : Bool := r.INTEN.testBit RTC_MODE0_CMP0_Pos

/-- Write a word to an ID-indexed GCLK register: the word configures the
generator (or multiplexer) named by its ID field. -/
def writeIndexed (idMask : Nat) (old : Nat → Nat) (v : Nat) : Nat → Nat :=
  fun i => if i = v &&& idMask then v else old i

/-- The SRC field of the configuration of generic clock generator 0. -/
def gen0Source (r : Regs) : Nat := (r.GENCTRL 0 >>> GCLK_GENCTRL_SRC_Pos) &&& 0x1F

/-! ## Clock functions of the RTC -/

/-- The C function `uint32_t zpmRTCGetClock(void)`. -/
def zpmRTCGetClock (s : Machine) : Nat := s.regs.COUNT

/-- The C function `void zpmRTCSetClock(const uint32_t count)`. -/
def zpmRTCSetClock (count : Nat) (s : Machine) : Machine :=
  store .COUNT (fun r => { r with COUNT := count % WORD }) s

/-- The C function `void zpmRTCInterruptDisable(void)`. -/
def zpmRTCInterruptDisable (s : Machine) : Machine :=
  let s := store .interval (fun r => { r with interval := 0 }) s
  let s := store .INTENCLR
    (fun r => { r with INTEN := clearBits r.INTEN RTC_MODE0_INTENCLR_MASK }) s
  s

/-- The C function `void zpmRTCInterruptEvery(const uint32_t count, const voidFuncPtr callback)`. -/
def zpmRTCInterruptEvery (count : Nat) (callback : voidFuncPtr) (s : Machine) : Machine :=
  let s := zpmRTCInterruptDisable s
  let s := store .interval (fun r => { r with interval := count % WORD }) s
  let s := store .callBack (fun r => { r with callBack := callback }) s
  let s := store .INTFLAG
    (fun r => { r with INTFLAG := clearBits r.INTFLAG RTC_MODE0_INTFLAG_MASK }) s
  let s := store .COMP0
    (fun r => { r with COMP0 := (zpmRTCGetClock s + count % WORD) % WORD }) s
  let s := store .INTENSET
    (fun r => { r with INTEN := setBits r.INTEN (r.INTEN ||| 1 <<< RTC_MODE0_CMP0_Pos) }) s
  s

/-- The C function `void zpmRTCInterruptAt(const uint32_t count, const voidFuncPtr callback)`. -/
def zpmRTCInterruptAt (count : Nat) (callback : voidFuncPtr) (s : Machine) : Machine :=
  let s := zpmRTCInterruptDisable s
  let s := store .callBack (fun r => { r with callBack := callback }) s
  let s := store .INTFLAG
    (fun r => { r with INTFLAG := clearBits r.INTFLAG RTC_MODE0_INTFLAG_MASK }) s
  let s := store .COMP0 (fun r => { r with COMP0 := count % WORD }) s
  let s := store .INTENSET
    (fun r => { r with INTEN := setBits r.INTEN (r.INTEN ||| 1 <<< RTC_MODE0_CMP0_Pos) }) s
  s

/-- The C function `void RTC_Handler(void)`. `prog p` is the body of the function at address
`p`. Returns the machine at handler exit and the callbacks the handler invoked. -/
def RTC_Handler (prog : voidFuncPtr → Machine → Machine) (s : Machine) :
    Machine × List voidFuncPtr :=
  let s := store .INTFLAG
    (fun r => { r with INTFLAG := clearBits r.INTFLAG RTC_MODE0_INTFLAG_MASK }) s
  let s := if s.regs.interval ≠ 0 then
      store .COMP0 (fun r => { r with COMP0 := (r.COMP0 + r.interval) % WORD }) s
    else s
  let s := if s.regs.interval = 0 then zpmRTCInterruptDisable s else s
  let p := s.regs.callBack
  let s := if p ≠ NULL then prog p s else s
  let s := store .possum (fun r => { r with possum := false }) s
  (s, if p ≠ NULL then [p] else [])

/-- Hardware: the free-running counter has reached the value `v`. -/
def counterAt (v : Nat) (s : Machine) : Machine :=
  { s with regs := { s.regs with COUNT := v % WORD } }

/-- Hardware: the compare condition is met. The CMP0 flag is raised, and the
interrupt vector `RTC_Handler` is entered when the CMP0 interrupt is enabled;
`now` is the value the counter has when the handler would start. -/
def compareEvent (prog : voidFuncPtr → Machine → Machine) (now : Nat) (s : Machine) :
    Machine × List voidFuncPtr :=
  let s := counterAt now s
  let s := { s with regs := { s.regs with INTFLAG := s.regs.INTFLAG ||| 1 <<< RTC_MODE0_CMP0_Pos } }
  if cmp0Enabled s.regs then RTC_Handler prog s else (s, [])

/-- Drive the compare condition once for every entry of `clk` (the counter
value at that event); returns the final machine and the callbacks invoked, in
order. -/
def fire (prog : voidFuncPtr → Machine → Machine) : List Nat → Machine → Machine × List voidFuncPtr
  | [], s => (s, [])
  | now :: rest, s =>
    let r := compareEvent prog now s
    let r2 := fire prog rest r.1
    (r2.1, r.2 ++ r2.2)

/-- A callback body that leaves the schedule alone: stored interval, stored
callback, compare register and interrupt enables are as it found them. -/
def PreservesSchedule (f : Machine → Machine) : Prop :=
  ∀ s, (f s).regs.interval = s.regs.interval ∧ (f s).regs.callBack = s.regs.callBack ∧
    (f s).regs.COMP0 = s.regs.COMP0 ∧ (f s).regs.INTEN = s.regs.INTEN

/-! ## Busy waits on the RTC -/

/-- The loop `while (zpmRTCGetClock() < (start + count));` of `zpmRTCDelay`.
`clk i` is the counter value seen by read number `i` of the call, `limit` is
the value of `start + count`. Returns the number of the read at which the
loop test failed. -/
def zpmRTCDelay.loop (clk : Nat → Nat) (limit : Nat) : Nat → Nat → Machine → Option (Nat × Machine)
  | 0, _, _ => none
  | fuel + 1, i, s =>
    let s := counterAt (clk i) s
    if zpmRTCGetClock s < limit then zpmRTCDelay.loop clk limit fuel (i + 1) s
    else some (i, s)

/-- The C function `void zpmRTCDelay(const uint32_t count)`. Read number 0 is the one that
initialises `start`; the loop then performs reads 1, 2, ... -/
def zpmRTCDelay (count : Nat) (clk : Nat → Nat) (fuel : Nat) (s : Machine) :
    Option (Nat × Machine) :=
  let s := counterAt (clk 0) s
  let start := zpmRTCGetClock s
  zpmRTCDelay.loop clk ((start + count % WORD) % WORD) fuel 1 s

/-- The loop `while (_g_f_playing_possum);` of `zpmPlayPossum`. `irq i` tells
whether the RTC interrupt is taken just before loop test number `i`. Returns
the number of the test at which the loop was left. -/
def zpmPlayPossum.spin (prog : voidFuncPtr → Machine → Machine) (irq : Nat → Bool) :
    Nat → Nat → Machine → Option (Nat × Machine)
  | 0, _, _ => none
  | fuel + 1, i, s =>
    let s := if irq i then (RTC_Handler prog s).1 else s
    if s.regs.possum then zpmPlayPossum.spin prog irq fuel (i + 1) s
    else some (i, s)

/-- The C function `void zpmPlayPossum(void)`. -/
def zpmPlayPossum (prog : voidFuncPtr → Machine → Machine) (irq : Nat → Bool)
    (fuel : Nat) (s : Machine) : Option (Nat × Machine) :=
  let s := store .possum (fun r => { r with possum := true }) s
  zpmPlayPossum.spin prog irq fuel 0 s

/-! ## CPU clock configuration -/

/-- The C function `void _configGCLK0(uint8_t source_clock)`. -/
def _configGCLK0 (source_clock : Nat) (s : Machine) : Machine :=
  let v := GCLK_GENCTRL_ID 0 ||| (source_clock % 256) <<< GCLK_GENCTRL_SRC_Pos |||
    GCLK_GENCTRL_IDC ||| GCLK_GENCTRL_GENEN
  store .GENCTRL (fun r => { r with GENCTRL := writeIndexed 0xF r.GENCTRL v }) s

/-- The C function `void _configGCLK_MAIN(uint8_t source_clock)`. -/
def _configGCLK_MAIN (source_clock : Nat) (s : Machine) : Machine :=
  let s := _configGCLK0 source_clock s
  let s := store .RWS (fun r => { r with RWS := NVMCTRL_CTRLB_RWS_SINGLE_Val }) s
  let s := store .DFLLCTRL (fun r => { r with DFLLCTRL := 0 }) s
  s

/-- The C function `void zpmCPUClk8M(void)`. -/
def zpmCPUClk8M (s : Machine) : Machine := _configGCLK_MAIN GCLK_SOURCE_OSC8M s

/-- The C function `void zpmCPUClk32K(void)`. -/
def zpmCPUClk32K (s : Machine) : Machine := _configGCLK_MAIN GCLK_SOURCE_XOSC32K s

/-- The values the hardware returns for successive reads of the two polled
status registers: read number `i` of GCLK.STATUS and of SYSCTRL.PCLKSR. -/
structure Hw where
  gclkStatus : Nat → Nat
  pclksr : Nat → Nat

/-- How a function containing status polls ends: it returned, or a poll was
still busy when the fuel was used up. Both carry the machine reached. -/
inductive Outcome where
  | done (s : Machine)
  | hung (s : Machine)

/-- The machine an outcome carries. -/
def Outcome.machine : Outcome → Machine
  | .done s => s
  | .hung s => s

/-- Sequencing: continue with `k` after a completed part. -/
def Outcome.andThen (o : Outcome) (k : Machine → Outcome) : Outcome :=
  match o with
  | .done s => k s
  | .hung s => .hung s

/-- Read GCLK.STATUS once. -/
def readGCLKStatus (hw : Hw) (s : Machine) : Nat × Machine :=
  (hw.gclkStatus s.gclkReads, { s with gclkReads := s.gclkReads + 1 })

/-- Read SYSCTRL.PCLKSR once. -/
def readPCLKSR (hw : Hw) (s : Machine) : Nat × Machine :=
  (hw.pclksr s.pclksrReads, { s with pclksrReads := s.pclksrReads + 1 })

/-- The loop `while (GCLK->STATUS.reg & GCLK_STATUS_SYNCBUSY);`. -/
def waitSyncBusy (hw : Hw) : Nat → Machine → Outcome
  | 0, s => .hung s
  | fuel + 1, s =>
    let r := readGCLKStatus hw s
    if r.1 &&& GCLK_STATUS_SYNCBUSY ≠ 0 then waitSyncBusy hw fuel r.2 else .done r.2

/-- The loop `while ((SYSCTRL->PCLKSR.reg & SYSCTRL_PCLKSR_DFLLRDY) == 0);`. -/
def waitDFLLRDY (hw : Hw) : Nat → Machine → Outcome
  | 0, s => .hung s
  | fuel + 1, s =>
    let r := readPCLKSR hw s
    if r.1 &&& SYSCTRL_PCLKSR_DFLLRDY = 0 then waitDFLLRDY hw fuel r.2 else .done r.2

/-- The loop waiting for both lock flags. The second operand of `||` reads
PCLKSR again, and only when the first operand is false. -/
def waitLocks (hw : Hw) : Nat → Machine → Outcome
  | 0, s => .hung s
  | fuel + 1, s =>
    let r := readPCLKSR hw s
    if r.1 &&& SYSCTRL_PCLKSR_DFLLLCKC = 0 then waitLocks hw fuel r.2
    else
      let r2 := readPCLKSR hw r.2
      if r2.1 &&& SYSCTRL_PCLKSR_DFLLLCKF = 0 then waitLocks hw fuel r2.2 else .done r2.2

/-- The C function `void zpmCPUClk48M(void)`. Each poll may spin `fuel` times. -/
def zpmCPUClk48M (hw : Hw) (fuel : Nat) (s : Machine) : Outcome :=
  let s := store .RWS (fun r => { r with RWS := NVMCTRL_CTRLB_RWS_HALF_Val }) s
  let clkctrl := GCLK_CLKCTRL_ID 0 ||| GCLK_CLKCTRL_GEN_GCLK1 ||| GCLK_CLKCTRL_CLKEN
  let s := store .CLKCTRL (fun r => { r with CLKCTRL := writeIndexed 0x3F r.CLKCTRL clkctrl }) s
  (waitSyncBusy hw fuel s).andThen fun s =>
  let s := store .DFLLCTRL (fun r => { r with DFLLCTRL := SYSCTRL_DFLLCTRL_ENABLE }) s
  (waitDFLLRDY hw fuel s).andThen fun s =>
  let dfllmul := SYSCTRL_DFLLMUL_CSTEP 31 ||| SYSCTRL_DFLLMUL_FSTEP 511 |||
    SYSCTRL_DFLLMUL_MUL (48000000 / 32768)
  let s := store .DFLLMUL (fun r => { r with DFLLMUL := dfllmul }) s
  (waitDFLLRDY hw fuel s).andThen fun s =>
  let full := SYSCTRL_DFLLCTRL_MODE ||| SYSCTRL_DFLLCTRL_WAITLOCK ||| SYSCTRL_DFLLCTRL_QLDIS
  let s := store .DFLLCTRL (fun r => { r with DFLLCTRL := r.DFLLCTRL ||| full }) s
  (waitDFLLRDY hw fuel s).andThen fun s =>
  let s := store .DFLLCTRL
    (fun r => { r with DFLLCTRL := r.DFLLCTRL ||| SYSCTRL_DFLLCTRL_ENABLE }) s
  (waitLocks hw fuel s).andThen fun s =>
  (waitDFLLRDY hw fuel s).andThen fun s =>
  let s := store .GENDIV
    (fun r => { r with GENDIV := writeIndexed 0xF r.GENDIV (GCLK_GENDIV_ID 0) }) s
  (waitSyncBusy hw fuel s).andThen fun s =>
  let genctrl := GCLK_GENCTRL_ID 0 ||| GCLK_GENCTRL_SRC_DFLL48M ||| GCLK_GENCTRL_IDC |||
    GCLK_GENCTRL_GENEN
  let s := store .GENCTRL (fun r => { r with GENCTRL := writeIndexed 0xF r.GENCTRL genctrl }) s
  waitSyncBusy hw fuel s

/-! ## Example data used by the concrete checks -/

/-- A register file with everything zero: no schedule, generator 0 unconfigured. -/
def Regs.zero : Regs :=
  { interval := 0, callBack := NULL, possum := false, COUNT := 0, COMP0 := 0,
    INTFLAG := 0, INTEN := 0, GENCTRL := fun _ => 0, GENDIV := fun _ => 0,
    CLKCTRL := fun _ => 0, RWS := 0, DFLLCTRL := 0, DFLLMUL := 0 }

/-- Status oracle of hardware that is never busy and always locked. -/
def Hw.ready : Hw := { gclkStatus := fun _ => 0, pclksr := fun _ => 0xD0 }

/-- The locations assigned so far, oldest first. -/
def Machine.targets (s : Machine) : List Target := s.writes.map WriteEv.target

/-- A program memory in which every callback returns without doing anything. -/
def idleProg : voidFuncPtr → Machine → Machine := fun _ s => s

/-- A program memory in which the function at address 2 calls
`zpmRTCInterruptAt(5, f1)`, `f1` being the function at address 1; every other
function returns without doing anything. -/
def rearmProg : voidFuncPtr → Machine → Machine :=
  fun p s => if p = 2 then zpmRTCInterruptAt 5 1 s else s

/-- A program memory in which the function at address 1 calls
`zpmRTCInterruptEvery(10, f1)`, registering itself again; every other
function returns without doing anything. -/
def selfRearmProg : voidFuncPtr → Machine → Machine :=
  fun p s => if p = 1 then zpmRTCInterruptEvery 10 1 s else s

/-- A program memory in which the function at address 3 calls
`zpmRTCInterruptEvery(20, f1)`; every other function returns without doing
anything. -/
def periodProg : voidFuncPtr → Machine → Machine :=
  fun p s => if p = 3 then zpmRTCInterruptEvery 20 1 s else s

/-- Counter values seen by successive reads when the counter stands at
`0xFFFFFFFE` at the first read and at `0xFFFFFFFF` from then on. -/
def clkNearTop : Nat → Nat := fun i => if i = 0 then 0xFFFFFFFE else 0xFFFFFFFF

/-- Counter values seen by successive reads when the counter stands at
`0xFFFFFFFF` at the first read and rolls over to 0 before the second:
`0xFFFFFFFF, 0, 1, 2, ...` -/
def clkRollover : Nat → Nat := fun i => if i = 0 then 0xFFFFFFFF else i - 1

theorem clearBits_mask_disjoint (old : Nat) :
    clearBits old RTC_MODE0_INTENCLR_MASK &&& RTC_MODE0_INTENCLR_MASK = 0 := by
  unfold clearBits
  rw [Nat.and_assoc]
  have h : (0xFF ^^^ (RTC_MODE0_INTENCLR_MASK &&& 0xFF)) &&& RTC_MODE0_INTENCLR_MASK = 0 := by
    decide
  rw [h, Nat.and_zero]

theorem clearBits_cmp0 (old : Nat) :
    (clearBits old RTC_MODE0_INTENCLR_MASK).testBit RTC_MODE0_CMP0_Pos = false := by
  unfold clearBits
  rw [Nat.testBit_and]
  have h : (0xFF ^^^ (RTC_MODE0_INTENCLR_MASK &&& 0xFF)).testBit RTC_MODE0_CMP0_Pos = false := by
    decide
  rw [h, Bool.and_false]

theorem setBits_cmp0 (old : Nat) :
    (setBits old (old ||| 1 <<< RTC_MODE0_CMP0_Pos)).testBit RTC_MODE0_CMP0_Pos = true := by
  unfold setBits
  rw [Nat.testBit_or, Nat.testBit_and, Nat.testBit_or]
  have h1 : (1 <<< RTC_MODE0_CMP0_Pos).testBit RTC_MODE0_CMP0_Pos = true := by decide
  have h2 : (0xFF : Nat).testBit RTC_MODE0_CMP0_Pos = true := by decide
  rw [h1, h2]
  simp

/-! ## The handler on a live schedule -/

theorem RTC_Handler_periodic (prog : voidFuncPtr → Machine → Machine) (s : Machine)
    (hn : s.regs.interval ≠ 0) (hcb : s.regs.callBack ≠ NULL)
    (hp : PreservesSchedule (prog s.regs.callBack)) :
    (RTC_Handler prog s).1.regs.interval = s.regs.interval ∧
    (RTC_Handler prog s).1.regs.callBack = s.regs.callBack ∧
    (RTC_Handler prog s).1.regs.COMP0 = (s.regs.COMP0 + s.regs.interval) % WORD ∧
    (RTC_Handler prog s).1.regs.INTEN = s.regs.INTEN ∧
    (RTC_Handler prog s).2 = [s.regs.callBack] := by
  simp only [RTC_Handler, store, ne_eq, hn, hcb, not_false_eq_true, if_true, if_false]
  refine ⟨?_, ?_, ?_, ?_, trivial⟩
  · exact (hp _).1
  · exact (hp _).2.1
  · exact (hp _).2.2.1
  · exact (hp _).2.2.2

/-- While CMP0 is masked, compare events change neither the schedule nor the
mask, and no callback is invoked. -/
theorem fire_masked (prog : voidFuncPtr → Machine → Machine) (clk : List Nat) :
    ∀ s : Machine, cmp0Enabled s.regs = false →
      (fire prog clk s).2 = [] ∧ cmp0Enabled (fire prog clk s).1.regs = false ∧
      (fire prog clk s).1.regs.interval = s.regs.interval ∧
      (fire prog clk s).1.regs.INTEN = s.regs.INTEN := by
  induction clk with
  | nil => intro s h; exact ⟨rfl, h, rfl, rfl⟩
  | cons now rest ih =>
    intro s h
    have hc : compareEvent prog now s =
        ({ counterAt now s with regs := { (counterAt now s).regs with
            INTFLAG := (counterAt now s).regs.INTFLAG ||| 1 <<< RTC_MODE0_CMP0_Pos } }, []) := by
      unfold compareEvent
      have h2 : cmp0Enabled ({ counterAt now s with regs := { (counterAt now s).regs with
            INTFLAG := (counterAt now s).regs.INTFLAG ||| 1 <<< RTC_MODE0_CMP0_Pos } }).regs
            = false := h
      simp only [h2]
      rfl
    have h3 := ih (compareEvent prog now s).1 (by rw [hc]; exact h)
    simp only [fire]
    rw [hc] at h3 ⊢
    exact ⟨by simp [h3.1], h3.2.1, h3.2.2.1, h3.2.2.2⟩

/-- Firing a periodic schedule whose callback leaves the schedule alone. -/
theorem fire_periodic (prog : voidFuncPtr → Machine → Machine) (n cb : Nat)
    (hn : n ≠ 0) (hcb : cb ≠ NULL) (hp : PreservesSchedule (prog cb)) (clk : List Nat) :
    ∀ s : Machine, s.regs.interval = n → s.regs.callBack = cb → cmp0Enabled s.regs = true →
      s.regs.COMP0 < WORD →
      (fire prog clk s).1.regs.COMP0 = (s.regs.COMP0 + clk.length * n) % WORD ∧
      (fire prog clk s).2 = List.replicate clk.length cb := by
  induction clk with
  | nil =>
    intro s _ _ _ hlt
    simp only [fire, List.length_nil, Nat.zero_mul, Nat.add_zero, List.replicate_zero, and_true]
    exact (Nat.mod_eq_of_lt hlt).symm
  | cons now rest ih =>
    intro s hi hc he _
    let s1 : Machine := { counterAt now s with regs := { (counterAt now s).regs with
            INTFLAG := (counterAt now s).regs.INTFLAG ||| 1 <<< RTC_MODE0_CMP0_Pos } }
    have hce : compareEvent prog now s = RTC_Handler prog s1 := by
      unfold compareEvent
      have h2 : cmp0Enabled s1.regs = true := he
      simp only [s1] at h2
      simp only [h2, if_true]
    have hi1 : s1.regs.interval = n := hi
    have hc1 : s1.regs.callBack = cb := hc
    have hH := RTC_Handler_periodic prog s1 (by rw [hi1]; exact hn) (by rw [hc1]; exact hcb)
      (by rw [hc1]; exact hp)
    rw [hi1, hc1] at hH
    have hcomp1 : s1.regs.COMP0 = s.regs.COMP0 := rfl
    have hen1 : s1.regs.INTEN = s.regs.INTEN := rfl
    obtain ⟨hHi, hHc, hHcomp, hHen, hHcalls⟩ := hH
    have hrec := ih (RTC_Handler prog s1).1 hHi hHc
      (by unfold cmp0Enabled; rw [hHen, hen1]; exact he)
      (by rw [hHcomp]; exact Nat.mod_lt _ (by decide))
    simp only [fire]
    rw [hce]
    refine ⟨?_, ?_⟩
    · rw [hrec.1, hHcomp, hcomp1, List.length_cons, Nat.succ_mul]
      simp only [WORD]
      omega
    · rw [hrec.2, hHcalls, List.length_cons]
      rfl

/-! ## What the scheduling calls install -/

theorem zpmRTCInterruptEvery_regs (n cb : Nat) (s : Machine) (hn : n < WORD) :
    (zpmRTCInterruptEvery n cb s).regs.interval = n ∧
    (zpmRTCInterruptEvery n cb s).regs.callBack = cb ∧
    (zpmRTCInterruptEvery n cb s).regs.COMP0 = (zpmRTCGetClock s + n) % WORD ∧
    cmp0Enabled (zpmRTCInterruptEvery n cb s).regs = true := by
  have h1 : (zpmRTCInterruptEvery n cb s).regs.interval = n % WORD := rfl
  have h2 : (zpmRTCInterruptEvery n cb s).regs.COMP0 = (zpmRTCGetClock s + n % WORD) % WORD := rfl
  rw [Nat.mod_eq_of_lt hn] at h1 h2
  refine ⟨h1, rfl, h2, ?_⟩
  simp only [zpmRTCInterruptEvery, zpmRTCInterruptDisable, store, cmp0Enabled]
  exact setBits_cmp0 _

theorem zpmRTCInterruptAt_regs (t cb : Nat) (s : Machine) :
    (zpmRTCInterruptAt t cb s).regs.interval = 0 ∧
    (zpmRTCInterruptAt t cb s).regs.callBack = cb ∧
    (zpmRTCInterruptAt t cb s).regs.COMP0 = t % WORD ∧
    cmp0Enabled (zpmRTCInterruptAt t cb s).regs = true := by
  refine ⟨rfl, rfl, rfl, ?_⟩
  simp only [zpmRTCInterruptAt, zpmRTCInterruptDisable, store, cmp0Enabled]
  exact setBits_cmp0 _

theorem zpmRTCInterruptDisable_regs (s : Machine) :
    (zpmRTCInterruptDisable s).regs.interval = 0 ∧
    (zpmRTCInterruptDisable s).regs.INTEN &&& RTC_MODE0_INTENCLR_MASK = 0 ∧
    cmp0Enabled (zpmRTCInterruptDisable s).regs = false := by
  refine ⟨rfl, ?_, ?_⟩
  · simp only [zpmRTCInterruptDisable, store]
    exact clearBits_mask_disjoint _
  · simp only [zpmRTCInterruptDisable, store, cmp0Enabled]
    exact clearBits_cmp0 _

/-! ## Periodic and one-shot schedules -/

/-- C1: for an interval `n > 0` and a callback `cb` that leaves the schedule
alone, `zpmRTCInterruptEvery n cb` writes `initialTarget = (count read + n) mod 2^32`
to COMP[0]; after `k` compare events (with whatever counter values `clk` the
handler runs find) COMP[0] is `initialTarget + k * n` modulo `2^32` and the
handler has invoked `cb` exactly `k` times and nothing else. -/
theorem periodic_target_and_calls (prog : voidFuncPtr → Machine → Machine) (s : Machine)
    (n : Nat) (cb : voidFuncPtr) (clk : List Nat)
    (hn : 0 < n) (hn32 : n < WORD) (hcb : cb ≠ NULL) (hp : PreservesSchedule (prog cb)) :
    (zpmRTCInterruptEvery n cb s).regs.COMP0 = (zpmRTCGetClock s + n) % WORD ∧
    (zpmRTCInterruptEvery n cb s).regs.interval = n ∧
    (fire prog clk (zpmRTCInterruptEvery n cb s)).1.regs.COMP0
      = ((zpmRTCGetClock s + n) % WORD + clk.length * n) % WORD ∧
    (fire prog clk (zpmRTCInterruptEvery n cb s)).2 = List.replicate clk.length cb := by
  obtain ⟨hi, hc, hcomp, hen⟩ := zpmRTCInterruptEvery_regs n cb s hn32
  have h := fire_periodic prog n cb (Nat.pos_iff_ne_zero.mp hn) hcb hp clk
    (zpmRTCInterruptEvery n cb s) hi hc hen (by rw [hcomp]; exact Nat.mod_lt _ (by decide))
  rw [hcomp] at h
  exact ⟨hcomp, hi, h.1, h.2⟩

/-- Instance of C1: interval 10 scheduled at count `0xFFFFFFFA`, three compare events. -/
theorem periodic_target_and_calls_witness :
    (fire idleProg [100, 250, 7] (zpmRTCInterruptEvery 10 7
        (Machine.fresh { Regs.zero with COUNT := 4294967290 }))).1.regs.COMP0 = 34 ∧
    (fire idleProg [100, 250, 7] (zpmRTCInterruptEvery 10 7
        (Machine.fresh { Regs.zero with COUNT := 4294967290 }))).2 = [7, 7, 7] := by
  have h := periodic_target_and_calls idleProg
    (Machine.fresh { Regs.zero with COUNT := 4294967290 }) 10 7 [100, 250, 7]
    (by decide) (by decide) (by decide) (fun _ => ⟨rfl, rfl, rfl, rfl⟩)
  exact ⟨h.2.2.1, h.2.2.2⟩

/-- C7: from any state, after `zpmRTCInterruptDisable` compare events, however
many, invoke no callback. -/
theorem disable_silences_handler (prog : voidFuncPtr → Machine → Machine) (s : Machine)
    (clk : List Nat) :
    (fire prog clk (zpmRTCInterruptDisable s)).2 = [] ∧
    (zpmRTCInterruptDisable s).regs.interval = 0 ∧
    (zpmRTCInterruptDisable s).regs.INTEN &&& RTC_MODE0_INTENCLR_MASK = 0 :=
  ⟨(fire_masked prog clk _ (zpmRTCInterruptDisable_regs s).2.2).1,
    (zpmRTCInterruptDisable_regs s).1, (zpmRTCInterruptDisable_regs s).2.1⟩

/-! ## The busy-wait delay -/

/-- When the delay loop is left, the counter value just read is not below the
limit `start + count` (as computed in 32 bits). -/
theorem zpmRTCDelay_loop_exit (clk : Nat → Nat) (limit : Nat) :
    ∀ (fuel i : Nat) (s : Machine) (r : Nat × Machine),
      zpmRTCDelay.loop clk limit fuel i s = some r →
        i ≤ r.1 ∧ limit ≤ clk r.1 % WORD ∧ zpmRTCGetClock r.2 = clk r.1 % WORD := by
  intro fuel
  induction fuel with
  | zero => intro i s r h; simp [zpmRTCDelay.loop] at h
  | succ f ih =>
    intro i s r h
    simp only [zpmRTCDelay.loop] at h
    split at h
    · have h2 := ih (i + 1) _ r h
      exact ⟨by omega, h2.2⟩
    · rename_i hlt
      simp only [Option.some.injEq] at h
      subst h
      exact ⟨Nat.le_refl _, Nat.le_of_not_lt hlt, rfl⟩

/-- Where `start + count` does not wrap, `zpmRTCDelay` returns only at a read
that is at least `count` ticks after `start`. -/
theorem zpmRTCDelay_no_wrap (count : Nat) (clk : Nat → Nat) (fuel : Nat) (s : Machine)
    (r : Nat × Machine) (hw : clk 0 % WORD + count < WORD)
    (h : zpmRTCDelay count clk fuel s = some r) :
    clk 0 % WORD + count ≤ clk r.1 % WORD := by
  unfold zpmRTCDelay at h
  have h2 := (zpmRTCDelay_loop_exit clk _ fuel 1 _ r h).2.1
  have h3 : zpmRTCGetClock (counterAt (clk 0) s) = clk 0 % WORD := rfl
  have h4 : count % WORD = count := Nat.mod_eq_of_lt (by omega)
  rw [h3, h4, Nat.mod_eq_of_lt hw] at h2
  exact h2

/-- C3 (the code at the failing input): `zpmRTCDelay(5)` entered with the
counter at `0xFFFFFFFE`, the counter reading `0xFFFFFFFF` afterwards. The
32-bit sum `start + count` wraps to 3, the loop is left at its first test, and
one tick has elapsed instead of five. -/
theorem zpmRTCDelay_returns_early_on_wrap :
    (0xFFFFFFFE + 5) % WORD = 3 ∧
    (∀ i, clkNearTop i ≤ clkNearTop (i + 1)) ∧
    (zpmRTCDelay 5 clkNearTop 4 (Machine.fresh Regs.zero)).map Prod.fst = some 1 ∧
    (clkNearTop 1 + WORD - clkNearTop 0) % WORD = 1 := by
  refine ⟨by decide, ?_, by decide, by decide⟩
  intro i
  unfold clkNearTop
  split <;> split <;> omega

/-- C4 (the code at the failing input): `zpmRTCDelay(0)` entered with the
counter at `0xFFFFFFFF`, the counter rolling over to 0 before the first loop
test. The test `0 < 0xFFFFFFFF` succeeds, so the loop is not left at its first
test; it is still spinning after 64 tests. -/
theorem zpmRTCDelay_zero_spins_after_rollover :
    (0xFFFFFFFF + 0) % WORD = 0xFFFFFFFF ∧
    (zpmRTCDelay 0 clkRollover 1 (Machine.fresh Regs.zero)).map Prod.fst = none ∧
    (zpmRTCDelay 0 clkRollover 64 (Machine.fresh Regs.zero)).map Prod.fst = none := by
  refine ⟨by decide, by decide, by decide⟩

/-! ## The handler in general -/

/-- The machine on which the handler invokes the callback: flags cleared, then
re-armed (periodic) or disabled (one-shot). -/
theorem RTC_Handler_shape (prog : voidFuncPtr → Machine → Machine) (s : Machine) :
    ∃ mid : Machine, mid.regs.callBack = s.regs.callBack ∧ mid.regs.COUNT = s.regs.COUNT ∧
      (RTC_Handler prog s).1 = store .possum (fun r => { r with possum := false })
        (if s.regs.callBack ≠ NULL then prog s.regs.callBack mid else mid) ∧
      (RTC_Handler prog s).2 = if s.regs.callBack ≠ NULL then [s.regs.callBack] else [] := by
  let s1 : Machine := store .INTFLAG
    (fun r => { r with INTFLAG := clearBits r.INTFLAG RTC_MODE0_INTFLAG_MASK }) s
  let s2 : Machine := if s1.regs.interval ≠ 0 then
      store .COMP0 (fun r => { r with COMP0 := (r.COMP0 + r.interval) % WORD }) s1
    else s1
  let mid : Machine := if s2.regs.interval = 0 then zpmRTCInterruptDisable s2 else s2
  have h2c : s2.regs.callBack = s.regs.callBack ∧ s2.regs.COUNT = s.regs.COUNT := by
    simp only [s2]
    split <;> exact ⟨rfl, rfl⟩
  have hmc : mid.regs.callBack = s.regs.callBack ∧ mid.regs.COUNT = s.regs.COUNT := by
    simp only [mid]
    split
    · exact h2c
    · exact h2c
  have hcall : (RTC_Handler prog s).1 = store .possum (fun r => { r with possum := false })
        (if mid.regs.callBack ≠ NULL then prog mid.regs.callBack mid else mid) := rfl
  have hlog : (RTC_Handler prog s).2 = if mid.regs.callBack ≠ NULL then [mid.regs.callBack]
        else [] := rfl
  rw [hmc.1] at hcall hlog
  exact ⟨mid, hmc.1, hmc.2, hcall, hlog⟩

/-- If the registered callback is not `c` and no function of the program ever
registers `c`, compare events never make the handler invoke `c`. -/
theorem fire_never_invokes (prog : voidFuncPtr → Machine → Machine) (c : voidFuncPtr)
    (hprog : ∀ p m, m.regs.callBack ≠ c → (prog p m).regs.callBack ≠ c) (clk : List Nat) :
    ∀ s : Machine, s.regs.callBack ≠ c → c ∉ (fire prog clk s).2 := by
  induction clk with
  | nil => intro s _; simp [fire]
  | cons now rest ih =>
    intro s hs
    have key : c ∉ (compareEvent prog now s).2 ∧ (compareEvent prog now s).1.regs.callBack ≠ c := by
      unfold compareEvent
      simp only
      split
      · obtain ⟨mid, hmc, -, h1, h2⟩ := RTC_Handler_shape prog
          { counterAt now s with regs := { (counterAt now s).regs with
            INTFLAG := (counterAt now s).regs.INTFLAG ||| 1 <<< RTC_MODE0_CMP0_Pos } }
        rw [h1, h2]
        have hmid : mid.regs.callBack ≠ c := by rw [hmc]; exact hs
        have hs2 : (counterAt now s).regs.callBack ≠ c := hs
        refine ⟨?_, ?_⟩
        · split
          · simp only [List.mem_singleton]
            exact fun h => hs2 h.symm
          · simp
        · split
          · exact hprog _ _ hmid
          · exact hmid
      · exact ⟨by simp, hs⟩
    simp only [fire, List.mem_append, not_or]
    exact ⟨key.1, ih _ key.2⟩

/-! ## Replacing a schedule -/

/-- C6 (as stated, refuted): with `f1` the callback of an active periodic
schedule, `zpmRTCInterruptEvery(10, f2)` installs a new schedule whose callback
`f2` calls `zpmRTCInterruptAt(5, f1)`. The first handler run invokes `f2`, the
second one invokes the old callback `f1`. -/
theorem old_callback_invoked_again :
    (2 : voidFuncPtr) ≠ 1 ∧
    (zpmRTCInterruptEvery 10 1 (Machine.fresh Regs.zero)).regs.callBack = 1 ∧
    (fire rearmProg [10, 20]
      (zpmRTCInterruptEvery 10 2 (zpmRTCInterruptEvery 10 1 (Machine.fresh Regs.zero)))).2
      = [2, 1] ∧
    (1 : voidFuncPtr) ∈ (fire rearmProg [10, 20]
      (zpmRTCInterruptEvery 10 2 (zpmRTCInterruptEvery 10 1 (Machine.fresh Regs.zero)))).2 := by
  refine ⟨by decide, by decide, by decide, by decide⟩

/-- A compare event invokes nothing, or exactly the callback that was stored
when the event occurred. -/
theorem compareEvent_calls (prog : voidFuncPtr → Machine → Machine) (now : Nat) (s : Machine) :
    (compareEvent prog now s).2 = [] ∨ (compareEvent prog now s).2 = [s.regs.callBack] := by
  unfold compareEvent
  simp only
  split
  · obtain ⟨mid, -, -, -, h2⟩ := RTC_Handler_shape prog
      { counterAt now s with regs := { (counterAt now s).regs with
        INTFLAG := (counterAt now s).regs.INTFLAG ||| 1 <<< RTC_MODE0_CMP0_Pos } }
    rw [h2]
    have hs2 : (counterAt now s).regs.callBack = s.regs.callBack := rfl
    split
    · right; simp only [hs2]
    · left; rfl
  · left; rfl

/-- If the stored callback is not `c` at the start and after each of the
compare events, the handler runs of those events never invoke `c`. -/
theorem fire_stored_never_invoked (prog : voidFuncPtr → Machine → Machine) (c : voidFuncPtr)
    (clk : List Nat) :
    ∀ s : Machine, (∀ k, (fire prog (clk.take k) s).1.regs.callBack ≠ c) →
      c ∉ (fire prog clk s).2 := by
  induction clk with
  | nil => intro s _; simp [fire]
  | cons now rest ih =>
    intro s h
    have h0 : s.regs.callBack ≠ c := h 0
    have hrest : ∀ k,
        (fire prog (rest.take k) (compareEvent prog now s).1).1.regs.callBack ≠ c := by
      intro k
      have hk := h (k + 1)
      simp only [List.take_succ_cons, fire] at hk
      exact hk
    have hfirst : c ∉ (compareEvent prog now s).2 := by
      rcases compareEvent_calls prog now s with he | he
      · rw [he]; simp
      · rw [he, List.mem_singleton]
        exact fun hc => h0 hc.symm
    simp only [fire, List.mem_append, not_or]
    exact ⟨hfirst, ih _ hrest⟩

/-- C6 (amended): a new schedule call with callback `cbNew ≠ cbOld` (`cbNew`
may be null) cancels the old schedule, whatever it was: as long as no callback
invoked by a later handler run leaves `cbOld` registered again, that is, as
long as `cbOld` is not the stored callback after any of the compare events
that follow, no run of the handler in those events invokes `cbOld`. Nothing is
assumed of functions that are not run. -/
theorem cancelled_callback_not_invoked (prog : voidFuncPtr → Machine → Machine) (s : Machine)
    (cbOld cbNew : voidFuncPtr) (n t : Nat) (clk : List Nat)
    (hne : cbNew ≠ cbOld) :
    ((∀ k,
        (fire prog (clk.take k) (zpmRTCInterruptEvery n cbNew s)).1.regs.callBack ≠ cbOld) →
      cbOld ∉ (fire prog clk (zpmRTCInterruptEvery n cbNew s)).2) ∧
    ((∀ k, (fire prog (clk.take k) (zpmRTCInterruptAt t cbNew s)).1.regs.callBack ≠ cbOld) →
      cbOld ∉ (fire prog clk (zpmRTCInterruptAt t cbNew s)).2) ∧
    (zpmRTCInterruptEvery n cbNew s).regs.callBack ≠ cbOld ∧
    (zpmRTCInterruptAt t cbNew s).regs.callBack ≠ cbOld :=
  ⟨fun h => fire_stored_never_invoked prog cbOld clk _ h,
   fun h => fire_stored_never_invoked prog cbOld clk _ h,
   hne, hne⟩

/-- Instance of amended C6: the old callback 1 would register itself again if
it ever ran; the new callback 2 does nothing. Four compare events on the new
periodic schedule, and on a new one-shot, never invoke callback 1. -/
theorem cancelled_callback_not_invoked_witness :
    (fire selfRearmProg [10, 20, 30, 40]
      (zpmRTCInterruptEvery 10 2 (zpmRTCInterruptEvery 10 1 (Machine.fresh Regs.zero)))).2
      = [2, 2, 2, 2] ∧
    (1 : voidFuncPtr) ∉ (fire selfRearmProg [10, 20, 30, 40]
      (zpmRTCInterruptEvery 10 2 (zpmRTCInterruptEvery 10 1 (Machine.fresh Regs.zero)))).2 ∧
    (1 : voidFuncPtr) ∉ (fire selfRearmProg [10, 20, 30, 40]
      (zpmRTCInterruptAt 7 2 (zpmRTCInterruptEvery 10 1 (Machine.fresh Regs.zero)))).2 :=
  have h := cancelled_callback_not_invoked selfRearmProg
    (zpmRTCInterruptEvery 10 1 (Machine.fresh Regs.zero)) 1 2 10 7 [10, 20, 30, 40] (by decide)
  ⟨by decide,
   h.1 (fun k => match k with
      | 0 => by decide
      | 1 => by decide
      | 2 => by decide
      | 3 => by decide
      | 4 => by decide
      | _ + 5 => by
        show (fire selfRearmProg [10, 20, 30, 40] (zpmRTCInterruptEvery 10 2
          (zpmRTCInterruptEvery 10 1 (Machine.fresh Regs.zero)))).1.regs.callBack ≠ 1
        decide),
   h.2.1 (fun k => match k with
      | 0 => by decide
      | 1 => by decide
      | 2 => by decide
      | 3 => by decide
      | 4 => by decide
      | _ + 5 => by
        show (fire selfRearmProg [10, 20, 30, 40] (zpmRTCInterruptAt 7 2
          (zpmRTCInterruptEvery 10 1 (Machine.fresh Regs.zero)))).1.regs.callBack ≠ 1
        decide)⟩

/-! ## Releasing the debug busy-wait -/

theorem RTC_Handler_possum (prog : voidFuncPtr → Machine → Machine) (s : Machine) :
    (RTC_Handler prog s).1.regs.possum = false := by
  obtain ⟨mid, -, -, h, -⟩ := RTC_Handler_shape prog s
  rw [h]
  rfl

theorem zpmPlayPossum_spin_exit (prog : voidFuncPtr → Machine → Machine) (irq : Nat → Bool) :
    ∀ (j fuel i : Nat) (s : Machine), s.regs.possum = true →
      (∀ m, m < j → irq (i + m) = false) → irq (i + j) = true → j < fuel →
      ∃ s', zpmPlayPossum.spin prog irq fuel i s = some (i + j, s') ∧ s'.regs.possum = false := by
  intro j
  induction j with
  | zero =>
    intro fuel i s _ _ hj hf
    obtain ⟨f, rfl⟩ : ∃ f, fuel = f + 1 := ⟨fuel - 1, by omega⟩
    have hi : irq i = true := hj
    refine ⟨(RTC_Handler prog s).1, ?_, RTC_Handler_possum prog s⟩
    simp only [zpmPlayPossum.spin, hi, if_true, RTC_Handler_possum, Bool.false_eq_true,
      if_false, Nat.add_zero]
  | succ j ih =>
    intro fuel i s hs hq hj hf
    obtain ⟨f, rfl⟩ : ∃ f, fuel = f + 1 := ⟨fuel - 1, by omega⟩
    have hi : irq i = false := hq 0 (by omega)
    obtain ⟨s', h1, h2⟩ := ih f (i + 1) s hs
      (fun m hm => by have := hq (m + 1) (by omega); rwa [show i + 1 + m = i + (m + 1) by omega])
      (by rwa [show i + 1 + j = i + (j + 1) by omega]) (by omega)
    refine ⟨s', ?_, h2⟩
    simp only [zpmPlayPossum.spin, hi, Bool.false_eq_true, if_false, hs, if_true]
    rw [h1, show i + 1 + j = i + (j + 1) by omega]

/-- C8: whatever the state at handler entry and whatever the registered
callback (null or not) does, `RTC_Handler` ends with the play-possum flag
false; so `zpmPlayPossum`, whose loop tests the flag it has set, leaves the
loop at the first test that follows a handler run, and not before. -/
theorem possum_released_by_any_interrupt :
    (∀ (prog : voidFuncPtr → Machine → Machine) (s : Machine),
      (RTC_Handler prog s).1.regs.possum = false) ∧
    (∀ (prog : voidFuncPtr → Machine → Machine) (irq : Nat → Bool) (fuel j : Nat) (s : Machine),
      (∀ m, m < j → irq m = false) → irq j = true → j < fuel →
      ∃ s', zpmPlayPossum prog irq fuel s = some (j, s') ∧ s'.regs.possum = false) := by
  refine ⟨RTC_Handler_possum, ?_⟩
  intro prog irq fuel j s hq hj hf
  have h := zpmPlayPossum_spin_exit prog irq j fuel 0
    (store .possum (fun r => { r with possum := true }) s) rfl
    (fun m hm => by rw [Nat.zero_add]; exact hq m hm) (by rw [Nat.zero_add]; exact hj) hf
  rw [Nat.zero_add] at h
  exact h

/-- Instance of C8: the interrupt is taken just before loop test number 3. -/
theorem possum_released_by_any_interrupt_witness :
    ∃ s', zpmPlayPossum idleProg (fun i => i == 3) 10 (Machine.fresh Regs.zero) = some (3, s')
      ∧ s'.regs.possum = false :=
  possum_released_by_any_interrupt.2 idleProg (fun i => i == 3) 10 3 (Machine.fresh Regs.zero)
    (by decide) (by decide) (by decide)

/-! ## Rescheduling from inside the callback -/

/-- C10: when the registered callback `cb` (of a periodic or of a one-shot
schedule) itself calls `zpmRTCInterruptAt t cb2`, respectively
`zpmRTCInterruptEvery n cb2`, the handler returns with what that call
installed: compare target `t`, respectively count + `n` modulo `2^32`; stored
interval 0, respectively `n`; callback `cb2`; compare interrupt enabled. -/
theorem reschedule_in_callback_survives (prog : voidFuncPtr → Machine → Machine) (s : Machine)
    (cb cb2 : voidFuncPtr) (t n : Nat) (hcb : s.regs.callBack = cb) (hne : cb ≠ NULL)
    (ht : t < WORD) (hn : n < WORD) :
    (prog cb = zpmRTCInterruptAt t cb2 →
      (RTC_Handler prog s).1.regs.COMP0 = t ∧
      (RTC_Handler prog s).1.regs.interval = 0 ∧
      (RTC_Handler prog s).1.regs.callBack = cb2 ∧
      cmp0Enabled (RTC_Handler prog s).1.regs = true ∧
      (RTC_Handler prog s).2 = [cb]) ∧
    (prog cb = zpmRTCInterruptEvery n cb2 →
      (RTC_Handler prog s).1.regs.COMP0 = (zpmRTCGetClock s + n) % WORD ∧
      (RTC_Handler prog s).1.regs.interval = n ∧
      (RTC_Handler prog s).1.regs.callBack = cb2 ∧
      cmp0Enabled (RTC_Handler prog s).1.regs = true ∧
      (RTC_Handler prog s).2 = [cb]) := by
  obtain ⟨mid, -, hcount, h1, h2⟩ := RTC_Handler_shape prog s
  rw [hcb] at h1 h2
  simp only [ne_eq, hne, not_false_eq_true, if_true] at h1 h2
  rw [h1, h2]
  refine ⟨?_, ?_⟩
  · intro hp
    rw [hp]
    obtain ⟨a, b, c, d⟩ := zpmRTCInterruptAt_regs t cb2 mid
    rw [Nat.mod_eq_of_lt ht] at c
    exact ⟨c, a, b, d, rfl⟩
  · intro hp
    rw [hp]
    obtain ⟨a, b, c, d⟩ := zpmRTCInterruptEvery_regs n cb2 mid hn
    refine ⟨?_, a, b, d, rfl⟩
    have hc : zpmRTCGetClock mid = zpmRTCGetClock s := hcount
    rw [← hc]
    exact c

/-- Instance of C10: a periodic schedule whose callback sets a one-shot, and a one-shot
whose callback sets a periodic schedule. -/
theorem reschedule_in_callback_survives_witness :
    (RTC_Handler rearmProg (zpmRTCInterruptEvery 10 2 (Machine.fresh Regs.zero))).1.regs.COMP0 = 5 ∧
    (RTC_Handler rearmProg (zpmRTCInterruptEvery 10 2 (Machine.fresh Regs.zero))).1.regs.interval
      = 0 ∧
    (RTC_Handler periodProg (zpmRTCInterruptAt 9 3
      (Machine.fresh { Regs.zero with COUNT := 4294967290 }))).1.regs.COMP0 = 14 ∧
    (RTC_Handler periodProg (zpmRTCInterruptAt 9 3
      (Machine.fresh { Regs.zero with COUNT := 4294967290 }))).1.regs.interval = 20 :=
  have h1 := (reschedule_in_callback_survives rearmProg
    (zpmRTCInterruptEvery 10 2 (Machine.fresh Regs.zero)) 2 1 5 0 rfl (by decide) (by decide)
    (by decide)).1 rfl
  have h2 := (reschedule_in_callback_survives periodProg
    (zpmRTCInterruptAt 9 3 (Machine.fresh { Regs.zero with COUNT := 4294967290 })) 3 1 0 20 rfl
    (by decide) (by decide) (by decide)).2 rfl
  ⟨h1.1, h1.2.1, h2.1, h2.2.1⟩

/-! ## Status polls and sequencing -/

theorem waitSyncBusy_frame (hw : Hw) : ∀ (fuel : Nat) (s : Machine),
    (waitSyncBusy hw fuel s).machine.regs = s.regs ∧
    (waitSyncBusy hw fuel s).machine.writes = s.writes := by
  intro fuel
  induction fuel with
  | zero => intro s; exact ⟨rfl, rfl⟩
  | succ f ih =>
    intro s
    simp only [waitSyncBusy]
    split
    · exact ih _
    · exact ⟨rfl, rfl⟩

theorem waitDFLLRDY_frame (hw : Hw) : ∀ (fuel : Nat) (s : Machine),
    (waitDFLLRDY hw fuel s).machine.regs = s.regs ∧
    (waitDFLLRDY hw fuel s).machine.writes = s.writes := by
  intro fuel
  induction fuel with
  | zero => intro s; exact ⟨rfl, rfl⟩
  | succ f ih =>
    intro s
    simp only [waitDFLLRDY]
    split
    · exact ih _
    · exact ⟨rfl, rfl⟩

theorem waitLocks_frame (hw : Hw) : ∀ (fuel : Nat) (s : Machine),
    (waitLocks hw fuel s).machine.regs = s.regs ∧
    (waitLocks hw fuel s).machine.writes = s.writes := by
  intro fuel
  induction fuel with
  | zero => intro s; exact ⟨rfl, rfl⟩
  | succ f ih =>
    intro s
    simp only [waitLocks]
    split
    · exact ih _
    · split
      · exact ih _
      · exact ⟨rfl, rfl⟩

theorem Outcome.andThen_eq_done (o : Outcome) (k : Machine → Outcome) (s' : Machine) :
    o.andThen k = .done s' ↔ ∃ s1, o = .done s1 ∧ k s1 = .done s' := by
  cases o with
  | done s => simp [Outcome.andThen]
  | hung s => simp [Outcome.andThen]

theorem done_machine (o : Outcome) (s : Machine) (h : o = .done s) : o.machine = s := by
  rw [h]; rfl

theorem waitSyncBusy_done (hw : Hw) (fuel : Nat) (s s' : Machine)
    (h : waitSyncBusy hw fuel s = .done s') : s'.regs = s.regs ∧ s'.writes = s.writes := by
  have e := waitSyncBusy_frame hw fuel s
  rw [done_machine _ _ h] at e
  exact e

theorem waitDFLLRDY_done (hw : Hw) (fuel : Nat) (s s' : Machine)
    (h : waitDFLLRDY hw fuel s = .done s') : s'.regs = s.regs ∧ s'.writes = s.writes := by
  have e := waitDFLLRDY_frame hw fuel s
  rw [done_machine _ _ h] at e
  exact e

theorem waitLocks_done (hw : Hw) (fuel : Nat) (s s' : Machine)
    (h : waitLocks hw fuel s = .done s') : s'.regs = s.regs ∧ s'.writes = s.writes := by
  have e := waitLocks_frame hw fuel s
  rw [done_machine _ _ h] at e
  exact e

theorem store_regs (t : Target) (f : Regs → Regs) (s : Machine) :
    (store t f s).regs = f s.regs := rfl

theorem store_targets (t : Target) (f : Regs → Regs) (s : Machine) :
    (store t f s).targets = s.targets ++ [t] := by
  simp only [Machine.targets, store, List.map_append, List.map_cons, List.map_nil]

theorem store_RWS (t : Target) (f : Regs → Regs) (s : Machine) (hf : ∀ r, (f r).RWS = r.RWS) :
    (store t f s).regs.RWS = s.regs.RWS := by
  rw [store_regs]
  exact hf _

theorem targets_congr (a b : Machine) (h : a.writes = b.writes) : a.targets = b.targets := by
  simp only [Machine.targets, h]

theorem gen0Source_writeIndexed (r : Regs) (v : Nat) (h : v &&& 0xF = 0) :
    gen0Source { r with GENCTRL := writeIndexed 0xF r.GENCTRL v }
      = (v >>> GCLK_GENCTRL_SRC_Pos) &&& 0x1F := by
  simp only [gen0Source, writeIndexed, h, if_true]

/-! ## CPU clock switching -/

theorem configGCLK_MAIN_post (src : Nat) (s : Machine)
    (h : (GCLK_GENCTRL_ID 0 ||| (src % 256) <<< GCLK_GENCTRL_SRC_Pos |||
      GCLK_GENCTRL_IDC ||| GCLK_GENCTRL_GENEN) &&& 0xF = 0) :
    gen0Source (_configGCLK_MAIN src s).regs
      = ((GCLK_GENCTRL_ID 0 ||| (src % 256) <<< GCLK_GENCTRL_SRC_Pos |||
          GCLK_GENCTRL_IDC ||| GCLK_GENCTRL_GENEN) >>> GCLK_GENCTRL_SRC_Pos) &&& 0x1F ∧
    (_configGCLK_MAIN src s).regs.RWS = NVMCTRL_CTRLB_RWS_SINGLE_Val := by
  refine ⟨?_, rfl⟩
  simp only [_configGCLK_MAIN, _configGCLK0, store, gen0Source, writeIndexed, h, if_true]

/-- The registers and the stores of a completed `zpmCPUClk48M`, stage by stage. -/
theorem zpmCPUClk48M_done (hw : Hw) (fuel : Nat) (s s' : Machine)
    (h : zpmCPUClk48M hw fuel s = .done s') :
    gen0Source s'.regs = GCLK_SOURCE_DFLL48M ∧
    s'.regs.RWS = NVMCTRL_CTRLB_RWS_HALF_Val ∧
    s'.targets = s.targets ++ [.RWS, .CLKCTRL, .DFLLCTRL, .DFLLMUL, .DFLLCTRL, .DFLLCTRL,
      .GENDIV, .GENCTRL] := by
  simp only [zpmCPUClk48M, Outcome.andThen_eq_done] at h
  obtain ⟨s1, h1, s2, h2, s3, h3, s4, h4, s5, h5, s6, h6, s7, h7, h8⟩ := h
  have e1 := waitSyncBusy_done hw fuel _ _ h1
  have e2 := waitDFLLRDY_done hw fuel _ _ h2
  have e3 := waitDFLLRDY_done hw fuel _ _ h3
  have e4 := waitDFLLRDY_done hw fuel _ _ h4
  have e5 := waitLocks_done hw fuel _ _ h5
  have e6 := waitDFLLRDY_done hw fuel _ _ h6
  have e7 := waitSyncBusy_done hw fuel _ _ h7
  have e8 := waitSyncBusy_done hw fuel _ _ h8
  refine ⟨?_, ?_, ?_⟩
  · rw [e8.1, store_regs, gen0Source_writeIndexed _ _ (by decide)]
    decide
  · have r8 : s'.regs.RWS = s7.regs.RWS := by
      rw [e8.1]; exact store_RWS _ _ _ (fun _ => rfl)
    have r7 : s7.regs.RWS = s6.regs.RWS := by
      rw [e7.1]; exact store_RWS _ _ _ (fun _ => rfl)
    have r6 : s6.regs.RWS = s5.regs.RWS := by rw [e6.1]
    have r5 : s5.regs.RWS = s4.regs.RWS := by
      rw [e5.1]; exact store_RWS _ _ _ (fun _ => rfl)
    have r4 : s4.regs.RWS = s3.regs.RWS := by
      rw [e4.1]; exact store_RWS _ _ _ (fun _ => rfl)
    have r3 : s3.regs.RWS = s2.regs.RWS := by
      rw [e3.1]; exact store_RWS _ _ _ (fun _ => rfl)
    have r2 : s2.regs.RWS = s1.regs.RWS := by
      rw [e2.1]; exact store_RWS _ _ _ (fun _ => rfl)
    have r1 : s1.regs.RWS = NVMCTRL_CTRLB_RWS_HALF_Val := by
      rw [e1.1, store_regs, store_regs]
    rw [r8, r7, r6, r5, r4, r3, r2, r1]
  · rw [targets_congr _ _ e8.2, store_targets, targets_congr _ _ e7.2, store_targets,
      targets_congr _ _ e6.2, targets_congr _ _ e5.2, store_targets,
      targets_congr _ _ e4.2, store_targets, targets_congr _ _ e3.2, store_targets,
      targets_congr _ _ e2.2, store_targets, targets_congr _ _ e1.2, store_targets,
      store_targets]
    simp only [List.append_assoc, List.cons_append, List.nil_append]

/-- C5: when the switch completes, generator 0 is sourced from the chosen
clock and RWS has the value of that clock class: OSC8M and 0 after
`zpmCPUClk8M`, XOSC32K and 0 after `zpmCPUClk32K`, DFLL48M and 1 after a
`zpmCPUClk48M` whose status polls all terminate; from any starting state. -/
theorem clock_switch_postcondition :
    (∀ s : Machine, gen0Source (zpmCPUClk8M s).regs = GCLK_SOURCE_OSC8M ∧
      (zpmCPUClk8M s).regs.RWS = NVMCTRL_CTRLB_RWS_SINGLE_Val) ∧
    (∀ s : Machine, gen0Source (zpmCPUClk32K s).regs = GCLK_SOURCE_XOSC32K ∧
      (zpmCPUClk32K s).regs.RWS = NVMCTRL_CTRLB_RWS_SINGLE_Val) ∧
    (∀ (hw : Hw) (fuel : Nat) (s s' : Machine), zpmCPUClk48M hw fuel s = .done s' →
      gen0Source s'.regs = GCLK_SOURCE_DFLL48M ∧
      s'.regs.RWS = NVMCTRL_CTRLB_RWS_HALF_Val) := by
  refine ⟨fun s => ?_, fun s => ?_, fun hw fuel s s' h => ?_⟩
  · have h := configGCLK_MAIN_post GCLK_SOURCE_OSC8M s (by decide)
    refine ⟨?_, h.2⟩
    unfold zpmCPUClk8M
    rw [h.1]
    decide
  · have h := configGCLK_MAIN_post GCLK_SOURCE_XOSC32K s (by decide)
    refine ⟨?_, h.2⟩
    unfold zpmCPUClk32K
    rw [h.1]
    decide
  · exact ⟨(zpmCPUClk48M_done hw fuel s s' h).1, (zpmCPUClk48M_done hw fuel s s' h).2.1⟩

/-- Instance of C5: with hardware that is ready at once, switching 8 MHz to 48 MHz completes. -/
theorem clock_switch_postcondition_witness :
    zpmCPUClk48M Hw.ready 1 (zpmCPUClk8M (Machine.fresh Regs.zero))
      = .done (zpmCPUClk48M Hw.ready 1 (zpmCPUClk8M (Machine.fresh Regs.zero))).machine ∧
    gen0Source (zpmCPUClk48M Hw.ready 1 (zpmCPUClk8M (Machine.fresh Regs.zero))).machine.regs
      = GCLK_SOURCE_DFLL48M ∧
    (zpmCPUClk48M Hw.ready 1 (zpmCPUClk8M (Machine.fresh Regs.zero))).machine.regs.RWS
      = NVMCTRL_CTRLB_RWS_HALF_Val :=
  ⟨rfl, clock_switch_postcondition.2.2 Hw.ready 1 (zpmCPUClk8M (Machine.fresh Regs.zero)) _ rfl⟩

/-! ## Flash wait states bracket the frequency change -/

end ZPM
